import Mathlib

/-!
Verification of the membership / role / connection-broker core of the
Api-BD backend.  The definitions below are shallow embeddings of the
JavaScript source: `ProjectMember` static methods (addMember, removeMember,
updateMember), the role-hierarchy checks of `authorizeProject` and
`BaseModel.checkPermission`, `ProjectDatabase.getConnectionConfig` and its
primary-flag hooks, the `/execute` route handler's history writes, and the
`getDbConnection` / `cleanupDbConnections` connection cache.

Modelling conventions:
* database tables are lists of row structures; Objection `patch` over a
  `where` filter becomes `List.map` guarded by the filter predicate;
* JavaScript `undefined` becomes `Option.none`; an Objection patch value
  of `undefined` is omitted from the patch (the stored field is kept);
* JS relational comparisons against `undefined` evaluate to `false`
  (NaN semantics), embedded by the `jsLt` / `jsGe` functions;
* thrown exceptions become `Except.error`; a failed operation performs no
  write, so the caller keeps the previous table.
-/

deriving instance DecidableEq for Except

namespace ApiBD

/-! ## ProjectMember data model (src/unnamed/part_005) -/

/-- Permission list of the `admin` entry of `ProjectMember.ROLES`. -/
def adminPermissions : List String :=
  ["project:read", "project:update", "project:delete", "project:export", "project:import",
   "member:list", "member:add", "member:remove", "member:update",
   "query:create", "query:read", "query:update", "query:delete", "query:execute",
   "query:export", "query:import",
   "database:create", "database:read", "database:update", "database:delete", "database:test",
   "dashboard:create", "dashboard:read", "dashboard:update", "dashboard:delete",
   "schedule:create", "schedule:read", "schedule:update", "schedule:delete", "schedule:execute",
   "api_key:create", "api_key:read", "api_key:update", "api_key:delete",
   "webhook:create", "webhook:read", "webhook:update", "webhook:delete",
   "settings:read", "settings:update",
   "activity:read"]

/-- Permission list of the `editor` entry of `ProjectMember.ROLES`. -/
def editorPermissions : List String :=
  ["project:read", "project:export",
   "member:list",
   "query:create", "query:read", "query:update", "query:delete", "query:execute", "query:export",
   "database:read", "database:test",
   "dashboard:create", "dashboard:read", "dashboard:update", "dashboard:delete",
   "schedule:create", "schedule:read", "schedule:update", "schedule:delete", "schedule:execute",
   "api_key:read",
   "webhook:read",
   "settings:read",
   "activity:read"]

/-- Permission list of the `viewer` entry of `ProjectMember.ROLES`. -/
def viewerPermissions : List String :=
  ["project:read",
   "member:list",
   "query:read", "query:execute",
   "database:read",
   "dashboard:read",
   "schedule:read",
   "settings:read",
   "activity:read"]

/-- Role keys accepted by the `role` enum of `ProjectMember.jsonSchema`. -/
def roleEnum : List String := ["admin", "editor", "viewer", "custom"]

/-- Static role-to-permission table (`getRolePermissions`): looks the role
key up in `ProjectMember.ROLES` and returns a copy of its permission list,
or the empty list when the key is unknown. -/
def getRolePermissions (role : String) : List String :=
  if role = "admin" then adminPermissions
  else if role = "editor" then editorPermissions
  else if role = "viewer" then viewerPermissions
  else if role = "custom" then []
  else []

/-- One row of the `project_members` table. -/
structure MemberRow where
  id : Nat
  project_id : Nat
  user_id : Nat
  role : String
  permissions : List String
  is_active : Bool
  invited_by : Option Nat
  invited_at : Option Nat
  joined_at : Option Nat
  last_accessed_at : Option Nat
  deriving Repr, DecidableEq

/-- The `project_members` table. -/
abbrev MemberTable : Type := List MemberRow

/-- Row filter of `.where(project_id).where(user_id)`. -/
def memberKeyB (projectId userId : Nat) (r : MemberRow) : Bool :=
  r.project_id == projectId && r.user_id == userId

/-- Embeds `ProjectMember.getByProjectAndUser`: first row of the table for
the given project and user, active or not. -/
def getByProjectAndUser (tbl : MemberTable) (projectId userId : Nat) : Option MemberRow :=
  tbl.find? (memberKeyB projectId userId)

/-- Row filter of the active-admin query shared by `removeMember` and
`updateMember`: `project_id` matches, `role` is admin and `is_active`. -/
def activeAdminB (projectId : Nat) (r : MemberRow) : Bool :=
  r.project_id == projectId && r.role == "admin" && r.is_active

/-- Result of `.where(project_id).where(role, admin).where(is_active, true)`. -/
def activeAdmins (tbl : MemberTable) (projectId : Nat) : List MemberRow :=
  tbl.filter (activeAdminB projectId)

/-- Count of active admin memberships of one project. -/
def countActiveAdmins (tbl : MemberTable) (projectId : Nat) : Nat :=
  tbl.countP (activeAdminB projectId)

/-- Errors thrown by the membership operations: `AlreadyMember`
("User is already a member of this project"), `LastAdminViolation`
("Cannot remove/change the role of the last admin") and the Objection
jsonSchema validation error for a role outside the enum. -/
inductive MemberError where
  | alreadyMember
  | lastAdminViolation
  | validationError
  deriving Repr, DecidableEq

/-- JS test `member?.role === ProjectMember.ROLES.ADMIN.key`: `undefined`
(no row) compares unequal to the admin key. -/
def memberIsAdminB (member : Option MemberRow) : Bool :=
  match member with
  | some m => m.role == "admin"
  | none => false

/-- Embeds `ProjectMember.removeMember(projectId, userId)`.  The guard
rejects when the looked-up member row has role admin and the live count of
active admins is at most one; otherwise every row of the (project, user)
key is soft-deactivated and the number of affected rows is returned. -/
def removeMember (projectId userId : Nat) (tbl : MemberTable) :
    Except MemberError (Nat × MemberTable) :=
  let admins := activeAdmins tbl projectId
  let member := getByProjectAndUser tbl projectId userId
  if memberIsAdminB member && decide (admins.length ≤ 1) then
    .error .lastAdminViolation
  else
    .ok ((tbl.filter (memberKeyB projectId userId)).length,
      tbl.map fun r =>
        if memberKeyB projectId userId r then { r with is_active := false } else r)

/-- Embeds `ProjectMember.updateMember(projectId, userId, role,
customPermissions)`.  When the new role is not admin, the last-admin guard
runs first; the patch then sets the role and, only for the custom role,
replaces the stored permission list (`permissions: undefined` is omitted
from the patch for standard roles).  A role outside the jsonSchema enum
fails validation at patch time. -/
def updateMember (projectId userId : Nat) (role : String)
    (customPermissions : List String) (tbl : MemberTable) :
    Except MemberError MemberTable :=
  if !(role == "admin") &&
      memberIsAdminB (getByProjectAndUser tbl projectId userId) &&
      decide ((activeAdmins tbl projectId).length ≤ 1) then
    .error .lastAdminViolation
  else if role ∈ roleEnum then
    .ok (tbl.map fun r =>
      if memberKeyB projectId userId r then
        { r with role := role,
                 permissions :=
                   if role == "custom" then customPermissions else r.permissions }
      else r)
  else
    .error .validationError

/-- State threaded through `addMember`: the table plus a fresh-id source
standing for `uuidv4()`, and the current clock for `new Date()`. -/
structure MemberState where
  rows : MemberTable
  nextId : Nat
  deriving Repr, DecidableEq

/-- Embeds `ProjectMember.addMember(projectId, userId, role, invitedBy,
customPermissions)` at time `now`.  An active existing row raises
AlreadyMember; an inactive row is reactivated in place (same row id),
resetting `joined_at` / `last_accessed_at` and stamping `invited_at` /
`invited_by`; otherwise a fresh row is inserted whose permissions default
to the static role table in `$beforeInsert` unless the role is custom. -/
def addMember (projectId userId : Nat) (role : String) (invitedBy : Nat)
    (customPermissions : List String) (now : Nat) (st : MemberState) :
    Except MemberError MemberState :=
  match getByProjectAndUser st.rows projectId userId with
  | some existing =>
    if existing.is_active then
      .error .alreadyMember
    else if role ∈ roleEnum then
      .ok { st with rows := st.rows.map fun r =>
        if r.id == existing.id then
          { r with role := role,
                   is_active := true,
                   invited_by := some invitedBy,
                   invited_at := some now,
                   joined_at := none,
                   last_accessed_at := none,
                   permissions :=
                     if role == "custom" then customPermissions else r.permissions }
        else r }
    else
      .error .validationError
  | none =>
    if role ∈ roleEnum then
      .ok { rows := st.rows ++
              [{ id := st.nextId,
                 project_id := projectId,
                 user_id := userId,
                 role := role,
                 permissions :=
                   if role == "custom" then customPermissions
                   else getRolePermissions role,
                 is_active := true,
                 invited_by := some invitedBy,
                 invited_at := some now,
                 joined_at := none,
                 last_accessed_at := none }],
            nextId := st.nextId + 1 }
    else
      .error .validationError

/-- One call of the membership mutation API considered by the last-admin
invariant: `removeMember` or `updateMember`. -/
inductive MemberOp where
  | rm (projectId userId : Nat)
  | upd (projectId userId : Nat) (role : String) (perms : List String)
  deriving Repr, DecidableEq

/-- Effect of one call on the table: on success the patched table, on a
thrown error the table untouched (the rejected call performs no write). -/
def stepMember (tbl : MemberTable) (op : MemberOp) : MemberTable :=
  match op with
  | .rm projectId userId =>
    match removeMember projectId userId tbl with
    | .ok x => x.2
    | .error _ => tbl
  | .upd projectId userId role perms =>
    match updateMember projectId userId role perms tbl with
    | .ok t => t
    | .error _ => tbl

/-- Effect of a sequence of `removeMember` / `updateMember` calls. -/
def runMemberOps (tbl : MemberTable) (ops : List MemberOp) : MemberTable :=
  ops.foldl stepMember tbl

/-- Modelled from the spec (refinement reference for claim C8): the
targeted member is the sole active admin of the project — its row is an
active admin row and the project has exactly one active admin. -/
def isSoleActiveAdminB (tbl : MemberTable) (projectId userId : Nat) : Bool :=
  match getByProjectAndUser tbl projectId userId with
  | some m => m.role == "admin" && m.is_active && countActiveAdmins tbl projectId == 1
  | none => false

/-- Well-formed member table: distinct row ids and at most one row per
(project, user) key, the uniqueness `addMember` maintains by refusing to
insert over an existing row. -/
def WfMemberTable (tbl : MemberTable) : Prop :=
  tbl.Pairwise fun a b =>
    a.id ≠ b.id ∧ ¬(a.project_id = b.project_id ∧ a.user_id = b.user_id)

instance (tbl : MemberTable) : Decidable (WfMemberTable tbl) := by
  unfold WfMemberTable
  infer_instance

/-! ## Role-hierarchy checks (src/unnamed/part_004 authorizeProject,
src/src/models/BaseModel.js checkPermission) -/

/-- The `roleHierarchy` object literal shared by `authorizeProject` and
`BaseModel.checkPermission`: `{ user: 1, editor: 2, admin: 3 }`.  Indexing
it with any other key yields JS `undefined`, embedded as `none`. -/
def roleHierarchy (role : String) : Option Nat :=
  if role = "user" then some 1
  else if role = "editor" then some 2
  else if role = "admin" then some 3
  else none

/-- JS `a < b` over possibly-undefined numbers: any comparison involving
`undefined` is `false`. -/
def jsLt : Option Nat → Option Nat → Bool
  | some a, some b => a < b
  | _, _ => false

/-- JS `a >= b` over possibly-undefined numbers: any comparison involving
`undefined` is `false`. -/
def jsGe : Option Nat → Option Nat → Bool
  | some a, some b => b ≤ a
  | _, _ => false

/-- Decision taken by `authorizeProject(requiredRole)` once a membership
row with role `memberRole` was found: the request is rejected exactly when
`roleHierarchy[userProject.role] < roleHierarchy[requiredRole]`, so access
is granted when that JS comparison is falsy. -/
def authorizeProjectGrant (memberRole requiredRole : String) : Bool :=
  !(jsLt (roleHierarchy memberRole) (roleHierarchy requiredRole))

/-- Decision taken by `BaseModel.checkPermission` once a `user_projects`
row with role `memberRole` was found: it returns
`roleHierarchy[userProject.role] >= roleHierarchy[requiredRole]`. -/
def checkPermissionGrant (memberRole requiredRole : String) : Bool :=
  jsGe (roleHierarchy memberRole) (roleHierarchy requiredRole)

/-- Modelled from the spec (refinement reference for claim C2): the claimed
fixed total order over roles, viewer=0 < user=1 < editor=2 < admin=3. -/
def specRoleRank (role : String) : Option Nat :=
  if role = "viewer" then some 0
  else if role = "user" then some 1
  else if role = "editor" then some 2
  else if role = "admin" then some 3
  else none

/-- Modelled from the spec (refinement reference for claim C2): grant iff
the member role's claimed numeric rank is at least the required rank. -/
def specHasRole (memberRole requiredRole : String) : Bool :=
  match specRoleRank memberRole, specRoleRank requiredRole with
  | some a, some b => b ≤ a
  | _, _ => false

/-! ## ProjectDatabase (src/src/models/BaseModel.js, second unit) -/

/-- Stored `connection_config` of a `ProjectDatabase` row. -/
structure ConnectionConfig where
  host : String
  port : Option Nat
  database : String
  username : String
  password : String
  ssl : Bool
  deriving Repr, DecidableEq

/-- SSL field of a knex driver config: `false`,
`{ rejectUnauthorized: false }`, or JS `undefined` (mysql's no-ssl case). -/
inductive SslOption where
  | off
  | rejectUnauthorizedFalse
  | undef
  deriving Repr, DecidableEq

/-- Driver configuration built by `getConnectionConfig`, one shape per
supported engine, mirroring the object literals of the switch. -/
inductive KnexConfig where
  | pg (host : String) (port : Nat) (database user password : String)
      (ssl : SslOption) (poolMin poolMax : Nat)
  | mysql2 (host : String) (port : Nat) (database user password : String)
      (ssl : SslOption)
  | mongodb (url : String) (useNewUrlParser useUnifiedTopology : Bool) (ssl : Bool)
  deriving Repr, DecidableEq

/-- Errors of the config builder: only the default branch of the switch,
`Unsupported database type: <type>`. -/
inductive DbConfigError where
  | unsupportedDatabaseType (dbType : String)
  deriving Repr, DecidableEq

/-- Connection url assembled in the mongodb branch (the JS template
literal; `encodeURIComponent` of the password is left as the identity). -/
def mongoUrl (c : ConnectionConfig) : String :=
  "mongodb://" ++ c.username ++ ":" ++ c.password ++ "@" ++ c.host ++ ":" ++
    Nat.repr (c.port.getD 27017) ++ "/" ++ c.database ++ "?authSource=admin"

/-- The `type` enum of `ProjectDatabase.jsonSchema`. -/
def databaseTypeEnum : List String :=
  ["postgresql", "mysql", "mongodb", "sqlite", "mssql"]

/-- Embeds `ProjectDatabase.getConnectionConfig()`: the switch over `type`
with cases for postgresql, mysql and mongodb only; every other type string
falls through to the default branch and throws. -/
def getConnectionConfig (dbType : String) (c : ConnectionConfig) :
    Except DbConfigError KnexConfig :=
  if dbType = "postgresql" then
    .ok (.pg c.host (c.port.getD 5432) c.database c.username c.password
      (if c.ssl then .rejectUnauthorizedFalse else .off) 1 5)
  else if dbType = "mysql" then
    .ok (.mysql2 c.host (c.port.getD 3306) c.database c.username c.password
      (if c.ssl then .rejectUnauthorizedFalse else .undef))
  else if dbType = "mongodb" then
    .ok (.mongodb (mongoUrl c) true true c.ssl)
  else
    .error (.unsupportedDatabaseType dbType)

/-- One row of the `project_databases` table (fields the primary-flag
logic touches). -/
structure DbRow where
  id : Nat
  project_id : Nat
  name : String
  dbType : String
  is_primary : Bool
  is_active : Bool
  created_by : Nat
  deriving Repr, DecidableEq

/-- The `project_databases` table. -/
abbrev DbTable : Type := List DbRow

/-- JS runtime errors surfaced by the `$beforeUpdate` hook: reading
`is_primary` from `this.$before`, which is `undefined`, throws. -/
inductive JsError where
  | typeErrorUndefinedBefore
  deriving Repr, DecidableEq

/-- Embeds the POST `/:id/databases` handler body plus the
`ProjectDatabase.$beforeInsert` hook: inside one transaction, when the new
database is primary every existing primary row of the project is cleared,
then the new row is inserted with its `is_primary` flag. -/
def registerDatabase (projectId newId : Nat) (name dbType : String)
    (isPrimary : Bool) (createdBy : Nat) (tbl : DbTable) : DbTable :=
  let cleared :=
    if isPrimary then
      tbl.map fun r =>
        if r.project_id == projectId && r.is_primary then
          { r with is_primary := false }
        else r
    else tbl
  cleared ++ [{ id := newId, project_id := projectId, name := name,
                dbType := dbType, is_primary := isPrimary, is_active := true,
                created_by := createdBy }]

/-- Embeds an update that patches `is_primary` on one `ProjectDatabase`
row, running the `ProjectDatabase.$beforeUpdate` hook first.  The hook
evaluates `this.is_primary && this.is_primary !== this.$before.is_primary`;
`this.$before` is not a property Objection ever sets, so whenever the
patched `is_primary` is truthy the member access on `undefined` throws a
TypeError and the update performs no write. -/
def updateDatabasePrimary (dbId : Nat) (isPrimary : Bool) (tbl : DbTable) :
    Except JsError DbTable :=
  if isPrimary then
    .error .typeErrorUndefinedBefore
  else
    .ok (tbl.map fun r =>
      if r.id == dbId then { r with is_primary := isPrimary } else r)

/-- At most one `is_primary = true` row per project. -/
def AtMostOnePrimary (tbl : DbTable) (projectId : Nat) : Prop :=
  tbl.countP (fun r => r.project_id == projectId && r.is_primary) ≤ 1

instance (tbl : DbTable) (projectId : Nat) :
    Decidable (AtMostOnePrimary tbl projectId) := by
  unfold AtMostOnePrimary
  infer_instance

/-! ## Connection broker (src/src/routes/query.routes.js,
getDbConnection / cleanupDbConnections) -/

/-- Errors of `getDbConnection`: `Database not found or access denied`,
and `Failed to connect to database: <driver message>`. -/
inductive BrokerError where
  | databaseNotFound
  | connectionFailed (driverMessage : String)
  deriving Repr, DecidableEq

/-- State of the module-level `dbConnections` map.  Connection handles are
identified by the order in which `knex(...)` built them (`nextHandle` is
the fresh-handle source), which makes JS object identity decidable;
`destroyed` records every handle on which `.destroy()` was called. -/
structure BrokerState where
  cache : List (String × Nat)
  nextHandle : Nat
  destroyed : List Nat
  deriving Repr, DecidableEq

/-- The empty `dbConnections` map at module load. -/
def BrokerState.init : BrokerState := { cache := [], nextHandle := 0, destroyed := [] }

/-- Cache key template literal of `getDbConnection`. -/
def cacheKey (projectId databaseId : Nat) : String :=
  Nat.repr projectId ++ ":" ++ Nat.repr databaseId

/-- Lookup in the `dbConnections` map. -/
def cacheLookup (key : String) (s : BrokerState) : Option Nat :=
  (s.cache.find? fun kv => kv.1 == key).map Prod.snd

/-- Embeds `getDbConnection(projectId, databaseId)`.  `dbs` is the
`project_databases` table; `validation` is the outcome of the
`SELECT 1` round trip performed on a freshly built handle.  A cache hit
returns the stored handle unchanged; a miss loads the database row
(`findById(databaseId).where(project_id)`), builds a fresh handle,
validates it, and caches it only when validation succeeds — a failed round
trip destroys the handle and re-throws with the driver message. -/
def getDbConnection (dbs : DbTable) (validation : Except String Unit)
    (projectId databaseId : Nat) (s : BrokerState) :
    Except BrokerError Nat × BrokerState :=
  let key := cacheKey projectId databaseId
  match cacheLookup key s with
  | some handle => (.ok handle, s)
  | none =>
    match dbs.find? (fun r => r.id == databaseId && r.project_id == projectId) with
    | none => (.error .databaseNotFound, s)
    | some _ =>
      let handle := s.nextHandle
      match validation with
      | .ok _ =>
        (.ok handle,
         { s with cache := s.cache ++ [(key, handle)], nextHandle := handle + 1 })
      | .error e =>
        (.error (.connectionFailed ("Failed to connect to database: " ++ e)),
         { s with nextHandle := handle + 1, destroyed := s.destroyed ++ [handle] })

/-- Embeds `cleanupDbConnections()`: every cached handle is destroyed and
deleted from the map (best effort; destruction failures only log). -/
def cleanupDbConnections (s : BrokerState) : BrokerState :=
  { cache := [],
    nextHandle := s.nextHandle,
    destroyed := s.destroyed ++ s.cache.map Prod.snd }

/-- Handles stored in the cache were built earlier than the next fresh
handle — true of the initial state and kept by every operation. -/
def BrokerWf (s : BrokerState) : Prop :=
  ∀ kv ∈ s.cache, kv.2 < s.nextHandle

instance (s : BrokerState) : Decidable (BrokerWf s) := by
  unfold BrokerWf
  infer_instance

/-! ## Query execution history (src/src/routes/query.routes.js POST
/execute, with the Project model of src/src/models/ProjectActivity.js) -/

/-- Relations declared by `Project.relationMappings` (the Project class
bundled in ProjectActivity.js).  `query_history` is not among them. -/
def projectRelationNames : List String :=
  ["createdBy", "members", "activities", "versions", "template", "databases", "queries"]

/-- One row the handler tries to append to `query_history`. -/
structure HistEntry where
  user_id : Nat
  database_id : Nat
  query : String
  params : List String
  row_count : Option Nat
  execution_time_ms : Nat
  is_ai_generated : Bool
  errorMessage : Option String
  deriving Repr, DecidableEq

/-- Embeds `Project.relatedQuery(relation).for(forProjectId).insert(entry)`
under Objection semantics: a relation name missing from
`relationMappings` makes the related query throw, and `for(undefined)`
cannot bind the owner project id, so the insert fails; otherwise the row
is appended. -/
def relatedHistoryInsert (relation : String) (forProjectId : Option Nat)
    (entry : HistEntry) (hist : List HistEntry) : Except String (List HistEntry) :=
  if projectRelationNames.contains relation then
    match forProjectId with
    | some _ => .ok (hist ++ [entry])
    | none => .error "undefined project id passed to relatedQuery for"
  else
    .error ("unknown relation: " ++ relation)

/-- Response produced by the POST `/execute` handler, paired with the
query-history table after the call. -/
structure ExecResponse where
  status : Nat
  success : Bool
  errorMsg : Option String
  history : List HistEntry
  deriving Repr, DecidableEq

/-- Shared failure path of the handler's catch block: it tries to log the
failed query with `.for(req.params.project_id)` — note `params`, not
`body` — and swallows any logging error, then answers 500 with the
original error message. -/
def executeFailurePath (paramsProjectId : Option Nat) (userId databaseId : Nat)
    (query : String) (params : List String) (isAi : Bool) (elapsed : Nat)
    (e : String) (hist : List HistEntry) : ExecResponse :=
  let entry : HistEntry :=
    { user_id := userId, database_id := databaseId, query := query,
      params := params, row_count := none, execution_time_ms := elapsed,
      is_ai_generated := isAi, errorMessage := some e }
  match relatedHistoryInsert "query_history" paramsProjectId entry hist with
  | .ok h => { status := 500, success := false, errorMsg := some e, history := h }
  | .error _ => { status := 500, success := false, errorMsg := some e, history := hist }

/-- Embeds the POST `/execute` handler after validation: resolve the
connection, run the query, insert a success history row via
`Project.relatedQuery(query_history).for(project_id)` (from the body), and
answer the result envelope; any thrown step falls into the catch block,
`executeFailurePath`.  `connResult` and `execResult` are the outcomes of
the two awaited external calls; `execResult` carries the row count. -/
def executeHandler (paramsProjectId : Option Nat)
    (userId projectId databaseId : Nat) (query : String) (params : List String)
    (isAi : Bool) (connResult : Except String Unit) (execResult : Except String Nat)
    (elapsed : Nat) (hist : List HistEntry) : ExecResponse :=
  match connResult with
  | .error e => executeFailurePath paramsProjectId userId databaseId query params isAi elapsed e hist
  | .ok _ =>
    match execResult with
    | .error e => executeFailurePath paramsProjectId userId databaseId query params isAi elapsed e hist
    | .ok rowCount =>
      let entry : HistEntry :=
        { user_id := userId, database_id := databaseId, query := query,
          params := params, row_count := some rowCount,
          execution_time_ms := elapsed, is_ai_generated := isAi,
          errorMessage := none }
      match relatedHistoryInsert "query_history" (some projectId) entry hist with
      | .ok h => { status := 200, success := true, errorMsg := none, history := h }
      | .error e =>
        executeFailurePath paramsProjectId userId databaseId query params isAi elapsed e hist

/-- The `/execute` route declares no path parameter, so
`req.params.project_id` is always `undefined` when the handler runs. -/
def executeRoute (userId projectId databaseId : Nat) (query : String)
    (params : List String) (isAi : Bool) (connResult : Except String Unit)
    (execResult : Except String Nat) (elapsed : Nat) (hist : List HistEntry) :
    ExecResponse :=
  executeHandler none userId projectId databaseId query params isAi
    connResult execResult elapsed hist

/-! ## Concrete sample data used by witnesses and counterexamples -/

/-- Sample active admin membership of project 0, user 1 (row id 0). -/
def rowAdmin : MemberRow :=
  { id := 0, project_id := 0, user_id := 1, role := "admin",
    permissions := adminPermissions, is_active := true,
    invited_by := none, invited_at := none, joined_at := none,
    last_accessed_at := none }

/-- Sample soft-removed admin membership of project 0, user 2 (row id 1). -/
def rowAdminInactive : MemberRow :=
  { rowAdmin with id := 1, user_id := 2, is_active := false }

/-- Sample second active admin membership of project 0, user 3 (row id 2). -/
def rowAdminB : MemberRow :=
  { rowAdmin with id := 2, user_id := 3 }

/-- Sample active editor membership of project 0, user 4 (row id 3). -/
def rowEditor : MemberRow :=
  { rowAdmin with id := 3, user_id := 4, role := "editor",
                  permissions := editorPermissions }

/-- Row 1 after reactivation as editor, invited by user 3 at time 100. -/
def rowReactivated : MemberRow :=
  { rowAdminInactive with
      role := "editor", is_active := true,
      invited_by := some 3, invited_at := some 100,
      joined_at := none, last_accessed_at := none }

/-- Sample membership state holding a soft-removed admin and an active
admin. -/
def memberStBefore : MemberState :=
  { rows := [rowAdminInactive, rowAdminB], nextId := 5 }

/-- The state `memberStBefore` after reactivating user 2 as editor. -/
def memberStAfter : MemberState :=
  { rows := [rowReactivated, rowAdminB], nextId := 5 }

/-- Sample stored connection configuration without an explicit port. -/
def sampleConnConfig : ConnectionConfig :=
  { host := "db.example.com", port := none, database := "appdb",
    username := "svc", password := "secret", ssl := false }

/-- Sample `project_databases` table: database 5 of project 7, primary. -/
def sampleDbRow : DbRow :=
  { id := 5, project_id := 7, name := "main", dbType := "postgresql",
    is_primary := true, is_active := true, created_by := 1 }

/-- Sample sibling database 6 of project 7, not primary. -/
def sampleDbRowB : DbRow :=
  { sampleDbRow with id := 6, name := "replica", is_primary := false }

/-- Broker state after one successful build from the initial state. -/
def brokerAfterFirst : BrokerState :=
  { cache := [(cacheKey 7 5, 0)], nextHandle := 1, destroyed := [] }

/-! ## Helper lemmas -/

theorem countP_split (p q : MemberRow → Bool) (l : List MemberRow) :
    l.countP p =
      l.countP (fun a => p a && q a) + l.countP (fun a => p a && !q a) := by
  induction l with
  | nil => simp
  | cons a t ih =>
    simp only [List.countP_cons]
    cases hp : p a <;> cases hq : q a <;> simp [hp, hq] <;> omega

theorem memberKeyB_iff (projectId userId : Nat) (r : MemberRow) :
    memberKeyB projectId userId r = true ↔
      r.project_id = projectId ∧ r.user_id = userId := by
  simp [memberKeyB]

theorem wf_key_unique {tbl : MemberTable} (hwf : WfMemberTable tbl)
    {projectId userId : Nat} {a b : MemberRow} (ha : a ∈ tbl) (hb : b ∈ tbl)
    (hka : memberKeyB projectId userId a = true)
    (hkb : memberKeyB projectId userId b = true) : a = b := by
  induction tbl with
  | nil => cases ha
  | cons x t ih =>
    have hx := List.pairwise_cons.mp hwf
    rcases List.mem_cons.mp ha with rfl | hat
    · rcases List.mem_cons.mp hb with rfl | hbt
      · rfl
      · exact absurd ⟨by
            rw [(memberKeyB_iff _ _ _).mp hka |>.1,
                (memberKeyB_iff _ _ _).mp hkb |>.1],
          by
            rw [(memberKeyB_iff _ _ _).mp hka |>.2,
                (memberKeyB_iff _ _ _).mp hkb |>.2]⟩ (hx.1 b hbt).2
    · rcases List.mem_cons.mp hb with rfl | hbt
      · exact absurd ⟨by
            rw [(memberKeyB_iff _ _ _).mp hkb |>.1,
                (memberKeyB_iff _ _ _).mp hka |>.1],
          by
            rw [(memberKeyB_iff _ _ _).mp hkb |>.2,
                (memberKeyB_iff _ _ _).mp hka |>.2]⟩ (hx.1 a hat).2
      · exact ih hx.2 hat hbt

theorem wf_find?_eq {tbl : MemberTable} (hwf : WfMemberTable tbl)
    {projectId userId : Nat} {r : MemberRow} (hr : r ∈ tbl)
    (hk : memberKeyB projectId userId r = true) :
    getByProjectAndUser tbl projectId userId = some r := by
  unfold getByProjectAndUser
  induction tbl with
  | nil => cases hr
  | cons x t ih =>
    have hx := List.pairwise_cons.mp hwf
    by_cases hkx : memberKeyB projectId userId x = true
    · rw [List.find?_cons_of_pos _ hkx]
      rcases List.mem_cons.mp hr with rfl | hrt
      · rfl
      · exact congrArg some (wf_key_unique hwf (List.mem_cons_self x t)
          (List.mem_cons_of_mem x hrt) hkx hk)
    · rw [List.find?_cons_of_neg _ hkx]
      rcases List.mem_cons.mp hr with rfl | hrt
      · exact absurd hk hkx
      · exact ih hx.2 hrt

theorem wf_countP_key_le_one {tbl : MemberTable} (hwf : WfMemberTable tbl)
    (projectId userId : Nat) (p : MemberRow → Bool) :
    tbl.countP (fun r => p r && memberKeyB projectId userId r) ≤ 1 := by
  induction tbl with
  | nil => simp
  | cons a t ih =>
    have hx := List.pairwise_cons.mp hwf
    rw [List.countP_cons]
    by_cases hk : (p a && memberKeyB projectId userId a) = true
    · have hzero : t.countP (fun r => p r && memberKeyB projectId userId r) = 0 := by
        rw [List.countP_eq_zero]
        intro r hrt hcontra
        have hka := (memberKeyB_iff _ _ _).mp (Bool.and_elim_right hk)
        have hkr := (memberKeyB_iff _ _ _).mp (Bool.and_elim_right hcontra)
        exact (hx.1 r hrt).2 ⟨hka.1.trans hkr.1.symm, hka.2.trans hkr.2.symm⟩
      simp [hk, hzero]
    · simpa [hk] using ih hx.2

theorem exclude_key_count {tbl : MemberTable} (hwf : WfMemberTable tbl)
    {projA userA projectId : Nat}
    (hguard : ¬(memberIsAdminB (getByProjectAndUser tbl projA userA) = true ∧
      (activeAdmins tbl projA).length ≤ 1))
    (h1 : 1 ≤ countActiveAdmins tbl projectId) :
    1 ≤ tbl.countP (fun r => !(memberKeyB projA userA r) && activeAdminB projectId r) := by
  have hflip : (fun r => !(memberKeyB projA userA r) && activeAdminB projectId r) =
      (fun r => activeAdminB projectId r && !(memberKeyB projA userA r)) := by
    funext r
    exact Bool.and_comm _ _
  rw [hflip]
  have hsplit := countP_split (activeAdminB projectId) (memberKeyB projA userA) tbl
  by_cases hz :
      tbl.countP (fun r => activeAdminB projectId r && memberKeyB projA userA r) = 0
  · unfold countActiveAdmins at h1
    omega
  · have hpos : 0 < tbl.countP
        (fun r => activeAdminB projectId r && memberKeyB projA userA r) :=
      Nat.pos_of_ne_zero hz
    obtain ⟨r0, hr0mem, hr0⟩ := List.countP_pos_iff.mp hpos
    have hr0adm : activeAdminB projectId r0 = true := Bool.and_elim_left hr0
    have hr0key : memberKeyB projA userA r0 = true := Bool.and_elim_right hr0
    have hproj : r0.project_id = projectId := by
      have := hr0adm
      unfold activeAdminB at this
      simp only [Bool.and_eq_true, beq_iff_eq] at this
      exact this.1.1
    have hprojA : r0.project_id = projA := ((memberKeyB_iff _ _ _).mp hr0key).1
    have hfind : getByProjectAndUser tbl projA userA = some r0 :=
      wf_find?_eq hwf hr0mem hr0key
    have hadm : memberIsAdminB (getByProjectAndUser tbl projA userA) = true := by
      rw [hfind]
      unfold memberIsAdminB
      unfold activeAdminB at hr0adm
      simp only [Bool.and_eq_true] at hr0adm
      exact hr0adm.1.2
    have hlen : ¬ (activeAdmins tbl projA).length ≤ 1 := fun hle => hguard ⟨hadm, hle⟩
    have hlen2 : 2 ≤ tbl.countP (activeAdminB projectId) := by
      have : (activeAdmins tbl projA).length = tbl.countP (activeAdminB projA) := by
        unfold activeAdmins
        exact (List.countP_eq_length_filter _ _).symm
      rw [this] at hlen
      rw [hproj] at hprojA
      rw [hprojA]
      omega
    have hone : tbl.countP
        (fun r => activeAdminB projectId r && memberKeyB projA userA r) ≤ 1 :=
      wf_countP_key_le_one hwf projA userA (activeAdminB projectId)
    omega

theorem removeMember_ok_inv {projA userA : Nat} {tbl : MemberTable}
    {n : Nat} {tbl' : MemberTable}
    (hok : removeMember projA userA tbl = .ok (n, tbl')) :
    ¬(memberIsAdminB (getByProjectAndUser tbl projA userA) = true ∧
        (activeAdmins tbl projA).length ≤ 1) ∧
    tbl' = tbl.map (fun r =>
      if memberKeyB projA userA r then { r with is_active := false } else r) ∧
    n = (tbl.filter (memberKeyB projA userA)).length := by
  simp only [removeMember] at hok
  by_cases hc : (memberIsAdminB (getByProjectAndUser tbl projA userA) &&
      decide ((activeAdmins tbl projA).length ≤ 1)) = true
  · rw [if_pos hc] at hok
    cases hok
  · rw [if_neg hc] at hok
    simp only [Except.ok.injEq, Prod.mk.injEq] at hok
    refine ⟨?_, hok.2.symm, hok.1.symm⟩
    intro h
    exact hc (by simp [h.1, h.2])

theorem updateMember_ok_inv {projA userA : Nat} {role : String}
    {perms : List String} {tbl tbl' : MemberTable}
    (hok : updateMember projA userA role perms tbl = .ok tbl') :
    tbl' = tbl.map (fun r =>
      if memberKeyB projA userA r then
        { r with role := role,
                 permissions := if role == "custom" then perms else r.permissions }
      else r) ∧
    role ∈ roleEnum ∧
    (role ≠ "admin" →
      ¬(memberIsAdminB (getByProjectAndUser tbl projA userA) = true ∧
          (activeAdmins tbl projA).length ≤ 1)) := by
  simp only [updateMember] at hok
  by_cases hadm : role = "admin"
  · subst hadm
    rw [if_neg (by simp)] at hok
    rw [if_pos (by decide : ("admin" : String) ∈ roleEnum)] at hok
    simp only [Except.ok.injEq] at hok
    exact ⟨hok.symm, by decide, fun h => absurd rfl h⟩
  · by_cases hc : (!(role == "admin") &&
        memberIsAdminB (getByProjectAndUser tbl projA userA) &&
        decide ((activeAdmins tbl projA).length ≤ 1)) = true
    · rw [if_pos hc] at hok
      cases hok
    · rw [if_neg hc] at hok
      by_cases hen : role ∈ roleEnum
      · rw [if_pos hen] at hok
        simp only [Except.ok.injEq] at hok
        refine ⟨hok.symm, hen, fun _ h => ?_⟩
        exact hc (by simp [h.1, h.2, hadm])
      · rw [if_neg hen] at hok
        cases hok

theorem activeAdmin_after_deactivate (projA userA projectId : Nat) (r : MemberRow) :
    activeAdminB projectId
        (if memberKeyB projA userA r then { r with is_active := false } else r) =
      (!(memberKeyB projA userA r) && activeAdminB projectId r) := by
  by_cases hk : memberKeyB projA userA r = true <;> simp [hk, activeAdminB]

theorem activeAdmin_after_roleChange (projA userA projectId : Nat) (role : String)
    (perms : List String) (hrole : role ≠ "admin") (r : MemberRow) :
    activeAdminB projectId
        (if memberKeyB projA userA r then
          { r with role := role,
                   permissions := if role == "custom" then perms else r.permissions }
        else r) =
      (!(memberKeyB projA userA r) && activeAdminB projectId r) := by
  by_cases hk : memberKeyB projA userA r = true <;> simp [hk, activeAdminB, hrole]

theorem removeMember_preserves_adminCount {projA userA : Nat} {tbl : MemberTable}
    (hwf : WfMemberTable tbl) {n : Nat} {tbl' : MemberTable}
    (hok : removeMember projA userA tbl = .ok (n, tbl'))
    (projectId : Nat) (h1 : 1 ≤ countActiveAdmins tbl projectId) :
    1 ≤ countActiveAdmins tbl' projectId := by
  obtain ⟨hguard, htbl', -⟩ := removeMember_ok_inv hok
  subst htbl'
  unfold countActiveAdmins
  rw [List.countP_map]
  have hfun : (activeAdminB projectId ∘ fun r =>
      if memberKeyB projA userA r then { r with is_active := false } else r) =
      fun r => !(memberKeyB projA userA r) && activeAdminB projectId r :=
    funext fun r => activeAdmin_after_deactivate projA userA projectId r
  rw [hfun]
  exact exclude_key_count hwf hguard h1

theorem updateMember_preserves_adminCount {projA userA : Nat} {role : String}
    {perms : List String} {tbl : MemberTable} (hwf : WfMemberTable tbl)
    {tbl' : MemberTable} (hok : updateMember projA userA role perms tbl = .ok tbl')
    (projectId : Nat) (h1 : 1 ≤ countActiveAdmins tbl projectId) :
    1 ≤ countActiveAdmins tbl' projectId := by
  obtain ⟨htbl', -, hguard⟩ := updateMember_ok_inv hok
  subst htbl'
  unfold countActiveAdmins
  rw [List.countP_map]
  by_cases hadm : role = "admin"
  · subst hadm
    refine le_trans h1 (List.countP_mono_left ?_)
    intro r _ hP
    simp only [Function.comp_apply]
    by_cases hk : memberKeyB projA userA r = true
    · rw [if_pos hk]
      unfold activeAdminB at hP ⊢
      simp only [Bool.and_eq_true, beq_iff_eq] at hP ⊢
      exact ⟨⟨hP.1.1, trivial⟩, hP.2⟩
    · rw [if_neg hk]
      exact hP
  · have hfun : (activeAdminB projectId ∘ fun r =>
        if memberKeyB projA userA r then
          { r with role := role,
                   permissions := if role == "custom" then perms else r.permissions }
        else r) =
        fun r => !(memberKeyB projA userA r) && activeAdminB projectId r :=
      funext fun r => activeAdmin_after_roleChange projA userA projectId role perms hadm r
    rw [hfun]
    exact exclude_key_count hwf (hguard hadm) h1

theorem wf_map_preserve {tbl : MemberTable} (hwf : WfMemberTable tbl)
    (f : MemberRow → MemberRow)
    (hf : ∀ r, (f r).id = r.id ∧ (f r).project_id = r.project_id ∧
      (f r).user_id = r.user_id) :
    WfMemberTable (tbl.map f) := by
  unfold WfMemberTable at hwf ⊢
  rw [List.pairwise_map]
  refine hwf.imp ?_
  intro a b hab
  obtain ⟨ha1, ha2, ha3⟩ := hf a
  obtain ⟨hb1, hb2, hb3⟩ := hf b
  constructor
  · rw [ha1, hb1]
    exact hab.1
  · rw [ha2, ha3, hb2, hb3]
    exact hab.2

theorem stepMember_preserves {tbl : MemberTable} (op : MemberOp)
    (hwf : WfMemberTable tbl) :
    WfMemberTable (stepMember tbl op) ∧
      ∀ projectId, 1 ≤ countActiveAdmins tbl projectId →
        1 ≤ countActiveAdmins (stepMember tbl op) projectId := by
  cases op with
  | rm projA userA =>
    cases hres : removeMember projA userA tbl with
    | error e =>
      simp only [stepMember, hres]
      exact ⟨hwf, fun _ h => h⟩
    | ok x =>
      obtain ⟨n, tbl'⟩ := x
      simp only [stepMember, hres]
      obtain ⟨-, htbl', -⟩ := removeMember_ok_inv hres
      constructor
      · rw [htbl']
        refine wf_map_preserve hwf _ fun r => ?_
        by_cases hk : memberKeyB projA userA r = true <;> simp [hk]
      · exact fun projectId h1 =>
          removeMember_preserves_adminCount hwf hres projectId h1
  | upd projA userA role perms =>
    cases hres : updateMember projA userA role perms tbl with
    | error e =>
      simp only [stepMember, hres]
      exact ⟨hwf, fun _ h => h⟩
    | ok tbl' =>
      simp only [stepMember, hres]
      obtain ⟨htbl', -, -⟩ := updateMember_ok_inv hres
      constructor
      · rw [htbl']
        refine wf_map_preserve hwf _ fun r => ?_
        by_cases hk : memberKeyB projA userA r = true <;> simp [hk]
      · exact fun projectId h1 =>
          updateMember_preserves_adminCount hwf hres projectId h1

theorem runMemberOps_preserves (ops : List MemberOp) {tbl : MemberTable}
    (hwf : WfMemberTable tbl) :
    WfMemberTable (runMemberOps tbl ops) ∧
      ∀ projectId, 1 ≤ countActiveAdmins tbl projectId →
        1 ≤ countActiveAdmins (runMemberOps tbl ops) projectId := by
  induction ops generalizing tbl with
  | nil => exact ⟨hwf, fun _ h => h⟩
  | cons op rest ih =>
    have hstep := stepMember_preserves op hwf
    have hrest := ih hstep.1
    refine ⟨hrest.1, fun projectId h1 => ?_⟩
    exact hrest.2 projectId (hstep.2 projectId h1)

theorem wf_id_unique {tbl : MemberTable} (hwf : WfMemberTable tbl)
    {a b : MemberRow} (ha : a ∈ tbl) (hb : b ∈ tbl) (hid : a.id = b.id) :
    a = b := by
  induction tbl with
  | nil => cases ha
  | cons x t ih =>
    have hx := List.pairwise_cons.mp hwf
    rcases List.mem_cons.mp ha with rfl | hat
    · rcases List.mem_cons.mp hb with rfl | hbt
      · rfl
      · exact absurd hid (hx.1 b hbt).1
    · rcases List.mem_cons.mp hb with rfl | hbt
      · exact absurd hid.symm (hx.1 a hat).1
      · exact ih hx.2 hat hbt

theorem countP_congr_mem {p q : MemberRow → Bool} {l : List MemberRow}
    (h : ∀ r ∈ l, p r = q r) : l.countP p = l.countP q := by
  induction l with
  | nil => rfl
  | cons a t ih =>
    rw [List.countP_cons, List.countP_cons,
      h a (List.mem_cons_self a t),
      ih fun r hr => h r (List.mem_cons_of_mem a hr)]

/-! ## Claim theorems -/

/-- C1: for every project that has had at least one admin assigned (at
least one active admin membership exists), no sequence of
`removeMember` / `updateRole` calls can bring the count of active
memberships with role admin to 0 — every rejected call leaves the table
untouched and every accepted call keeps at least one active admin. -/
theorem lastAdmin_invariant (tbl : MemberTable) (ops : List MemberOp)
    (projectId : Nat) (hwf : WfMemberTable tbl)
    (h1 : 1 ≤ countActiveAdmins tbl projectId) :
    1 ≤ countActiveAdmins (runMemberOps tbl ops) projectId :=
  (runMemberOps_preserves ops hwf).2 projectId h1

/-- Witness for C1: a project with one admin and one editor keeps an
active admin across an attempted admin removal, an attempted admin
downgrade and an editor removal. -/
theorem lastAdmin_invariant_witness :
    WfMemberTable [rowAdmin, rowEditor] ∧
    1 ≤ countActiveAdmins [rowAdmin, rowEditor] 0 ∧
    1 ≤ countActiveAdmins
      (runMemberOps [rowAdmin, rowEditor]
        [.rm 0 1, .upd 0 1 "viewer" [], .rm 0 4]) 0 :=
  ⟨by decide, by decide,
   lastAdmin_invariant [rowAdmin, rowEditor]
     [.rm 0 1, .upd 0 1 "viewer" [], .rm 0 4] 0 (by decide) (by decide)⟩

/-- C10: calling `removeMember` when no membership row at all exists for
the (project, user) pair raises no error: it reports 0 affected rows and
leaves the membership table unchanged. -/
theorem removeMember_missing_member (projectId userId : Nat)
    (tbl : MemberTable)
    (h : getByProjectAndUser tbl projectId userId = none) :
    removeMember projectId userId tbl = .ok (0, tbl) := by
  have hall : ∀ r ∈ tbl, ¬ memberKeyB projectId userId r = true := by
    unfold getByProjectAndUser at h
    exact List.find?_eq_none.mp h
  simp only [removeMember]
  rw [h]
  rw [if_neg (by simp [memberIsAdminB])]
  have hfil : tbl.filter (memberKeyB projectId userId) = [] :=
    List.filter_eq_nil_iff.mpr hall
  have hmap : (tbl.map fun r =>
      if memberKeyB projectId userId r then { r with is_active := false } else r) =
      tbl := by
    have := List.map_congr_left
      (f := fun r =>
        if memberKeyB projectId userId r then { r with is_active := false } else r)
      (g := fun r => r) (l := tbl) fun a ha => if_neg (hall a ha)
    rw [this, List.map_id']
  rw [hfil, hmap]
  rfl

/-- Witness for C10: removing user 5, who has no row in a one-admin
table, succeeds with 0 affected rows. -/
theorem removeMember_missing_member_witness :
    getByProjectAndUser [rowAdmin] 0 5 = none ∧
    removeMember 0 5 [rowAdmin] = .ok (0, [rowAdmin]) :=
  ⟨by decide, removeMember_missing_member 0 5 [rowAdmin] (by decide)⟩

/-- C8 counterexample: the claim says `removeMember` fails with
LastAdminViolation exactly when the target is the sole active admin, but
removing user 2 — whose row is an inactive admin row, while user 3 is the
project's only active admin — is also rejected, so the "exactly when" is
false on this input. -/
theorem removeMember_lastAdmin_counterexample :
    removeMember 0 2 [rowAdminInactive, rowAdminB] = .error .lastAdminViolation ∧
    isSoleActiveAdminB [rowAdminInactive, rowAdminB] 0 2 = false := by
  exact ⟨by decide, by decide⟩

/-- C8 (amended): `removeMember` only soft-deactivates (the result table
is a pointwise patch of the input setting `is_active := false` on the
targeted key, so no row is deleted), and it fails with LastAdminViolation
iff the targeted member's row has role admin and the project has at most
one active admin — the sole-active-admin case, but also the case of an
inactive admin row while at most one active admin exists. -/
theorem removeMember_spec (projectId userId : Nat) (tbl : MemberTable) :
    (removeMember projectId userId tbl = .error .lastAdminViolation ↔
      (memberIsAdminB (getByProjectAndUser tbl projectId userId) = true ∧
        (activeAdmins tbl projectId).length ≤ 1)) ∧
    (∀ n tbl', removeMember projectId userId tbl = .ok (n, tbl') →
      tbl' = tbl.map (fun r =>
        if memberKeyB projectId userId r then { r with is_active := false } else r) ∧
      tbl'.length = tbl.length) := by
  constructor
  · constructor
    · intro herr
      by_cases hc : (memberIsAdminB (getByProjectAndUser tbl projectId userId) &&
          decide ((activeAdmins tbl projectId).length ≤ 1)) = true
      · simp only [Bool.and_eq_true, decide_eq_true_eq] at hc
        exact hc
      · simp only [removeMember] at herr
        rw [if_neg hc] at herr
        cases herr
    · intro h
      simp only [removeMember]
      rw [if_pos (by simp [h.1, h.2])]
  · intro n tbl' hok
    obtain ⟨-, htbl', -⟩ := removeMember_ok_inv hok
    exact ⟨htbl', by rw [htbl', List.length_map]⟩

/-- Witness for C8: removing user 3 while two active admins exist
soft-deactivates exactly that row and preserves the table length. -/
theorem removeMember_spec_witness :
    removeMember 0 3 [rowAdmin, rowAdminB] =
      .ok (1, [rowAdmin, { rowAdminB with is_active := false }]) ∧
    [rowAdmin, { rowAdminB with is_active := false }] =
      ([rowAdmin, rowAdminB] : MemberTable).map (fun r =>
        if memberKeyB 0 3 r then { r with is_active := false } else r) ∧
    ([rowAdmin, { rowAdminB with is_active := false }] : MemberTable).length =
      ([rowAdmin, rowAdminB] : MemberTable).length :=
  ⟨by decide,
   ((removeMember_spec 0 3 [rowAdmin, rowAdminB]).2 1
     [rowAdmin, { rowAdminB with is_active := false }] (by decide)).1,
   ((removeMember_spec 0 3 [rowAdmin, rowAdminB]).2 1
     [rowAdmin, { rowAdminB with is_active := false }] (by decide)).2⟩

/-- C4 counterexample: updating the role of an admin (while a second
admin exists) to the standard role viewer succeeds but leaves the stored
admin permission list in place, instead of replacing it with the static
table's viewer permissions as the claim states. -/
theorem updateMember_standard_role_counterexample :
    updateMember 0 1 "viewer" [] [rowAdmin, rowAdminB] =
      .ok [{ rowAdmin with role := "viewer" }, rowAdminB] ∧
    ({ rowAdmin with role := "viewer" } : MemberRow).permissions ≠
      getRolePermissions "viewer" := by
  exact ⟨by decide, by decide⟩

/-- C4 (amended): on a successful `updateRole`, the custom role replaces
the stored permissions with the supplied list, while for every other role
the supplied list is ignored and the stored permissions are left
unchanged (the static role table is only consulted when a row is
inserted, not on update). -/
theorem updateMember_permissions_spec (projectId userId : Nat)
    (role : String) (perms : List String) (tbl tbl' : MemberTable)
    (hok : updateMember projectId userId role perms tbl = .ok tbl') :
    tbl' = tbl.map (fun r =>
      if memberKeyB projectId userId r then
        { r with role := role,
                 permissions := if role == "custom" then perms else r.permissions }
      else r) :=
  (updateMember_ok_inv hok).1

/-- Witness for C4: switching user 1 to the custom role stores exactly
the supplied permission list. -/
theorem updateMember_permissions_spec_witness :
    [{ rowAdmin with role := "custom", permissions := ["query:read"] }, rowAdminB] =
      ([rowAdmin, rowAdminB] : MemberTable).map (fun r =>
        if memberKeyB 0 1 r then
          { r with role := "custom",
                   permissions :=
                     if ("custom" : String) == "custom" then ["query:read"]
                     else r.permissions }
        else r) :=
  updateMember_permissions_spec 0 1 "custom" ["query:read"]
    [rowAdmin, rowAdminB]
    [{ rowAdmin with role := "custom", permissions := ["query:read"] }, rowAdminB]
    (by decide)

/-- C9: `addMember` fails with AlreadyMember when an active row exists
for the (project, user) pair; when only a soft-removed row exists it
reactivates that same row — same row id, `joined_at` and
`last_accessed_at` reset to null, `invited_at` / `invited_by` stamped —
so that after remove-then-re-add exactly one active row exists for the
pair, not two. -/
theorem addMember_reactivation_spec (projectId userId : Nat) (role : String)
    (invitedBy : Nat) (perms : List String) (now : Nat) (st : MemberState) :
    (∀ m, getByProjectAndUser st.rows projectId userId = some m →
      m.is_active = true →
      addMember projectId userId role invitedBy perms now st = .error .alreadyMember) ∧
    (∀ m st', WfMemberTable st.rows →
      getByProjectAndUser st.rows projectId userId = some m →
      m.is_active = false →
      addMember projectId userId role invitedBy perms now st = .ok st' →
      st'.rows.length = st.rows.length ∧
      st'.rows.countP (fun r => memberKeyB projectId userId r && r.is_active) = 1 ∧
      ∃ m', getByProjectAndUser st'.rows projectId userId = some m' ∧
        m'.id = m.id ∧ m'.is_active = true ∧ m'.role = role ∧
        m'.invited_by = some invitedBy ∧ m'.invited_at = some now ∧
        m'.joined_at = none ∧ m'.last_accessed_at = none) := by
  constructor
  · intro m hm hact
    simp only [addMember, hm]
    rw [if_pos hact]
  · intro m st' hwf hm hact hok
    simp only [addMember, hm] at hok
    rw [if_neg (by simp [hact])] at hok
    by_cases hen : role ∈ roleEnum
    · rw [if_pos hen] at hok
      simp only [Except.ok.injEq] at hok
      set g : MemberRow → MemberRow := fun r =>
        if r.id == m.id then
          { r with role := role,
                   is_active := true,
                   invited_by := some invitedBy,
                   invited_at := some now,
                   joined_at := none,
                   last_accessed_at := none,
                   permissions :=
                     if role == "custom" then perms else r.permissions }
        else r with hg
      have hrows : st'.rows = st.rows.map g := by
        rw [← hok]
      have hm' : st.rows.find? (memberKeyB projectId userId) = some m := hm
      have hmem : m ∈ st.rows := List.mem_of_find?_eq_some hm'
      have hkey : memberKeyB projectId userId m = true := List.find?_some hm'
      have hgfields : ∀ r, (g r).id = r.id ∧ (g r).project_id = r.project_id ∧
          (g r).user_id = r.user_id := by
        intro r
        simp only [hg]
        by_cases hid : (r.id == m.id) = true
        · rw [if_pos hid]
          exact ⟨rfl, rfl, rfl⟩
        · rw [if_neg hid]
          exact ⟨rfl, rfl, rfl⟩
      refine ⟨?_, ?_, ?_⟩
      · rw [hrows, List.length_map]
      · rw [hrows, List.countP_map]
        have hpoint : ∀ r ∈ st.rows,
            ((fun r => memberKeyB projectId userId r && r.is_active) ∘ g) r =
              memberKeyB projectId userId r := by
          intro r hr
          simp only [Function.comp_apply]
          by_cases hid : (r.id == m.id) = true
          · have hrm : r = m := wf_id_unique hwf hr hmem (by simpa using hid)
            subst hrm
            simp [hg, hid, memberKeyB]
          · simp only [hg, if_neg hid]
            by_cases hkr : memberKeyB projectId userId r = true
            · have hrm : r = m := wf_key_unique hwf hr hmem hkr hkey
              subst hrm
              exact absurd (by simp) hid
            · rw [Bool.eq_false_iff.mpr hkr]
              rfl
        rw [countP_congr_mem hpoint]
        have hge : 0 < st.rows.countP (memberKeyB projectId userId) :=
          List.countP_pos_iff.mpr ⟨m, hmem, hkey⟩
        have hle : st.rows.countP (memberKeyB projectId userId) ≤ 1 := by
          have h2 := wf_countP_key_le_one hwf projectId userId (fun _ => true)
          have heq : (fun r => (fun _ : MemberRow => true) r &&
              memberKeyB projectId userId r) = memberKeyB projectId userId :=
            funext fun r => Bool.true_and _
          rwa [heq] at h2
        omega
      · have hwfmap : WfMemberTable (st.rows.map g) :=
          wf_map_preserve hwf g hgfields
        have hgmem : g m ∈ st.rows.map g := List.mem_map_of_mem g hmem
        have hkeyg : memberKeyB projectId userId (g m) = true := by
          have h1 := (hgfields m).2.1
          have h2 := (hgfields m).2.2
          unfold memberKeyB at hkey ⊢
          rw [h1, h2]
          exact hkey
        refine ⟨g m, ?_, ?_⟩
        · rw [hrows]
          exact wf_find?_eq hwfmap hgmem hkeyg
        · simp [hg]
    · rw [if_neg hen] at hok
      cases hok

/-- Witness for C9: reactivating soft-removed user 2 as editor keeps one
row, makes it the unique active row for the pair and stamps the
invitation fields. -/
theorem addMember_reactivation_spec_witness :
    memberStAfter.rows.length = memberStBefore.rows.length ∧
    memberStAfter.rows.countP (fun r => memberKeyB 0 2 r && r.is_active) = 1 ∧
    ∃ m', getByProjectAndUser memberStAfter.rows 0 2 = some m' ∧
      m'.id = rowAdminInactive.id ∧ m'.is_active = true ∧ m'.role = "editor" ∧
      m'.invited_by = some 3 ∧ m'.invited_at = some 100 ∧
      m'.joined_at = none ∧ m'.last_accessed_at = none :=
  (addMember_reactivation_spec 0 2 "editor" 3 [] 100 memberStBefore).2
    rowAdminInactive memberStAfter
    (by decide) (by decide) (by decide) (by decide)

/-- C2 counterexample: the claim's fixed total order gives viewer rank 0,
so a viewer must be denied admin-level access and granted viewer-level
access; but the realized hierarchy object has no viewer entry, so
`authorizeProject` grants a viewer any required role (the JS `<` test on
undefined is false) while `checkPermission` denies a viewer even
viewer-level access. -/
theorem roleCheck_counterexample :
    authorizeProjectGrant "viewer" "admin" = true ∧
    specHasRole "viewer" "admin" = false ∧
    checkPermissionGrant "viewer" "viewer" = false ∧
    specHasRole "viewer" "viewer" = true := by
  exact ⟨rfl, rfl, rfl, rfl⟩

/-- C2 (amended): the realized hierarchy is user=1 < editor=2 < admin=3
with no viewer entry.  For member and required roles both in the table,
`authorizeProject` and `checkPermission` agree and grant iff the member
rank is at least the required rank; when either role is outside the table
(viewer, custom, or any other string), `authorizeProject` grants and
`checkPermission` denies. -/
theorem roleCheck_spec (memberRole requiredRole : String) :
    (∀ a b, roleHierarchy memberRole = some a → roleHierarchy requiredRole = some b →
      authorizeProjectGrant memberRole requiredRole = decide (b ≤ a) ∧
      checkPermissionGrant memberRole requiredRole = decide (b ≤ a)) ∧
    ((roleHierarchy memberRole = none ∨ roleHierarchy requiredRole = none) →
      authorizeProjectGrant memberRole requiredRole = true ∧
      checkPermissionGrant memberRole requiredRole = false) := by
  constructor
  · intro a b ha hb
    unfold authorizeProjectGrant checkPermissionGrant
    rw [ha, hb]
    constructor
    · rcases Nat.lt_or_ge a b with h | h
      · have h2 : jsLt (some a) (some b) = true := decide_eq_true h
        have h3 : decide (b ≤ a) = false := decide_eq_false (by omega)
        rw [h2, h3]
        rfl
      · have h2 : jsLt (some a) (some b) = false := decide_eq_false (by omega)
        have h3 : decide (b ≤ a) = true := decide_eq_true h
        rw [h2, h3]
        rfl
    · rfl
  · intro h
    unfold authorizeProjectGrant checkPermissionGrant
    cases hm : roleHierarchy memberRole with
    | none => exact ⟨rfl, rfl⟩
    | some a =>
      cases hr : roleHierarchy requiredRole with
      | none => exact ⟨rfl, rfl⟩
      | some b =>
        rw [hm, hr] at h
        rcases h with h | h <;> cases h

/-- Witness for C2: an editor asking for user-level access is granted by
both checks, and a viewer asking for user-level access is granted by
`authorizeProject` but denied by `checkPermission`. -/
theorem roleCheck_spec_witness :
    roleHierarchy "editor" = some 2 ∧ roleHierarchy "user" = some 1 ∧
    (authorizeProjectGrant "editor" "user" = decide ((1 : Nat) ≤ 2) ∧
      checkPermissionGrant "editor" "user" = decide ((1 : Nat) ≤ 2)) ∧
    roleHierarchy "viewer" = none ∧
    (authorizeProjectGrant "viewer" "user" = true ∧
      checkPermissionGrant "viewer" "user" = false) :=
  ⟨by decide, by decide,
   (roleCheck_spec "editor" "user").1 2 1 (by decide) (by decide),
   by decide,
   (roleCheck_spec "viewer" "user").2 (Or.inl (by decide))⟩

/-- C5 counterexample: sqlite and mssql are members of the jsonSchema
type enum, yet building their connection configuration throws
UnsupportedDatabaseType — the switch only handles postgresql, mysql and
mongodb. -/
theorem connectionConfig_enum_counterexample :
    "sqlite" ∈ databaseTypeEnum ∧
    getConnectionConfig "sqlite" sampleConnConfig =
      .error (.unsupportedDatabaseType "sqlite") ∧
    "mssql" ∈ databaseTypeEnum ∧
    getConnectionConfig "mssql" sampleConnConfig =
      .error (.unsupportedDatabaseType "mssql") := by
  exact ⟨by decide, rfl, by decide, rfl⟩

/-- C5 (amended): only postgresql, mysql and mongodb succeed at
config-build time, each yielding its own connection shape with default
ports 5432, 3306 and 27017; every other type string — including the enum
members sqlite and mssql — fails with UnsupportedDatabaseType before any
network attempt. -/
theorem getConnectionConfig_spec (c : ConnectionConfig) (t : String) :
    getConnectionConfig "postgresql" c =
      .ok (.pg c.host (c.port.getD 5432) c.database c.username c.password
        (if c.ssl then .rejectUnauthorizedFalse else .off) 1 5) ∧
    getConnectionConfig "mysql" c =
      .ok (.mysql2 c.host (c.port.getD 3306) c.database c.username c.password
        (if c.ssl then .rejectUnauthorizedFalse else .undef)) ∧
    getConnectionConfig "mongodb" c =
      .ok (.mongodb (mongoUrl c) true true c.ssl) ∧
    (t ≠ "postgresql" → t ≠ "mysql" → t ≠ "mongodb" →
      getConnectionConfig t c = .error (.unsupportedDatabaseType t)) := by
  refine ⟨rfl, ?_, ?_, ?_⟩
  · unfold getConnectionConfig
    rw [if_neg (by decide), if_pos rfl]
  · unfold getConnectionConfig
    rw [if_neg (by decide), if_neg (by decide), if_pos rfl]
  · intro h1 h2 h3
    unfold getConnectionConfig
    rw [if_neg h1, if_neg h2, if_neg h3]

/-- Witness for C5: the enum member mssql fails at config-build time. -/
theorem getConnectionConfig_spec_witness :
    getConnectionConfig "mssql" sampleConnConfig =
      .error (.unsupportedDatabaseType "mssql") :=
  (getConnectionConfig_spec sampleConnConfig "mssql").2.2.2
    (by decide) (by decide) (by decide)

/-- C6: registering a primary database does clear sibling primary flags
inside the route transaction and keeps at most one primary row, but
updating an existing row with is_primary = true always throws — the
`$beforeUpdate` hook reads `is_primary` from the undefined `this.$before`
— so no update can ever set the flag, contradicting the claim's update
path; the evaluation below exhibits both behaviors. -/
theorem primaryFlag_update_typeError_eval :
    updateDatabasePrimary 6 true [sampleDbRow, sampleDbRowB] =
      .error .typeErrorUndefinedBefore ∧
    registerDatabase 7 8 "analytics" "postgresql" true 1
        [sampleDbRow, sampleDbRowB] =
      [{ sampleDbRow with is_primary := false }, sampleDbRowB,
       { id := 8, project_id := 7, name := "analytics", dbType := "postgresql",
         is_primary := true, is_active := true, created_by := 1 }] ∧
    AtMostOnePrimary
      (registerDatabase 7 8 "analytics" "postgresql" true 1
        [sampleDbRow, sampleDbRowB]) 7 := by
  exact ⟨rfl, by decide, by decide⟩

/-- C3: the handler can never record a QueryHistoryEntry — the Project
model declares no `query_history` relation, so both the success-path and
the failure-path inserts throw; the history table is unchanged on every
path, a failing execution still answers 500 with its own error message
(the logging failure is swallowed, not masking it), and even a successful
execution is turned into a 500 by the failed success-path insert. -/
theorem executeRoute_history_spec :
    (∀ userId projectId databaseId query params isAi connResult execResult
        elapsed hist,
      (executeRoute userId projectId databaseId query params isAi connResult
        execResult elapsed hist).history = hist) ∧
    (∀ userId projectId databaseId query params isAi elapsed hist e,
      (executeRoute userId projectId databaseId query params isAi (.ok ())
          (.error e) elapsed hist).errorMsg = some e ∧
      (executeRoute userId projectId databaseId query params isAi (.ok ())
          (.error e) elapsed hist).status = 500) ∧
    executeRoute 4 10 20 "SELECT 1" [] false (.ok ()) (.ok 1) 3 [] =
      { status := 500, success := false,
        errorMsg := some "unknown relation: query_history", history := [] } := by
  have hrel : ∀ forId entry hist, relatedHistoryInsert "query_history" forId entry hist =
      .error ("unknown relation: " ++ "query_history") := by
    intro forId entry hist
    unfold relatedHistoryInsert
    rw [if_neg (by decide)]
  have hfail : ∀ paramsProjectId userId databaseId query params isAi elapsed e hist,
      executeFailurePath paramsProjectId userId databaseId query params isAi
        elapsed e hist =
      { status := 500, success := false, errorMsg := some e, history := hist } := by
    intro paramsProjectId userId databaseId query params isAi elapsed e hist
    simp only [executeFailurePath]
    rw [hrel]
  refine ⟨?_, ?_, ?_⟩
  · intro userId projectId databaseId query params isAi connResult execResult
      elapsed hist
    cases connResult with
    | error e => simp only [executeRoute, executeHandler, hfail]
    | ok u =>
      cases execResult with
      | error e => simp only [executeRoute, executeHandler, hfail]
      | ok rowCount => simp only [executeRoute, executeHandler, hrel, hfail]
  · intro userId projectId databaseId query params isAi elapsed hist e
    refine ⟨?_, ?_⟩ <;> simp only [executeRoute, executeHandler, hfail]
  · exact (by decide :
      executeRoute 4 10 20 "SELECT 1" [] false (.ok ()) (.ok 1) 3 [] =
        { status := 500, success := false,
          errorMsg := some "unknown relation: query_history", history := [] })

theorem cacheLookup_lt {s : BrokerState} (hwf : BrokerWf s) {key : String}
    {h : Nat} (hl : cacheLookup key s = some h) : h < s.nextHandle := by
  unfold cacheLookup at hl
  cases hf : s.cache.find? (fun kv => kv.1 == key) with
  | none =>
    rw [hf] at hl
    cases hl
  | some kv =>
    rw [hf] at hl
    simp only [Option.map_some', Option.some.injEq] at hl
    rw [← hl]
    exact hwf kv (List.mem_of_find?_eq_some hf)

/-- C7: a second `getConnection` call with no intervening `shutdownAll`
returns the identity-equal cached handle; after `shutdownAll` the next
call builds a fresh handle (a different identity); a lookup miss for a
database id not belonging to the project fails with DatabaseNotFound and
changes nothing; and a failed validation round trip returns
ConnectionFailed with the driver message, destroys the fresh handle and
caches nothing for the key. -/
theorem getDbConnection_cache_spec (dbs : DbTable) (projectId databaseId : Nat)
    (s : BrokerState) (hwf : BrokerWf s) :
    (∀ v₁ v₂ h s', getDbConnection dbs v₁ projectId databaseId s = (.ok h, s') →
      getDbConnection dbs v₂ projectId databaseId s' = (.ok h, s')) ∧
    (∀ v₁ h s' row, getDbConnection dbs v₁ projectId databaseId s = (.ok h, s') →
      dbs.find? (fun r => r.id == databaseId && r.project_id == projectId) = some row →
      ∃ s'', getDbConnection dbs (.ok ()) projectId databaseId
          (cleanupDbConnections s') = (.ok s'.nextHandle, s'') ∧
        s'.nextHandle ≠ h) ∧
    (∀ v, cacheLookup (cacheKey projectId databaseId) s = none →
      dbs.find? (fun r => r.id == databaseId && r.project_id == projectId) = none →
      getDbConnection dbs v projectId databaseId s = (.error .databaseNotFound, s)) ∧
    (∀ e, cacheLookup (cacheKey projectId databaseId) s = none →
      (∃ row, dbs.find?
        (fun r => r.id == databaseId && r.project_id == projectId) = some row) →
      ∃ s₂, getDbConnection dbs (.error e) projectId databaseId s =
          (.error (.connectionFailed ("Failed to connect to database: " ++ e)), s₂) ∧
        s₂.cache = s.cache ∧ s.nextHandle ∈ s₂.destroyed) := by
  have hbuild : ∀ v₁ h s',
      getDbConnection dbs v₁ projectId databaseId s = (.ok h, s') →
      (cacheLookup (cacheKey projectId databaseId) s = some h ∧ s' = s) ∨
      (cacheLookup (cacheKey projectId databaseId) s = none ∧ h = s.nextHandle ∧
        s' = { s with
          cache := s.cache ++ [(cacheKey projectId databaseId, s.nextHandle)],
          nextHandle := s.nextHandle + 1 }) := by
    intro v₁ h s' hfirst
    cases hcl : cacheLookup (cacheKey projectId databaseId) s with
    | some h0 =>
      simp only [getDbConnection, hcl, Prod.mk.injEq, Except.ok.injEq] at hfirst
      obtain ⟨hh, hs⟩ := hfirst
      subst hh
      exact Or.inl ⟨rfl, hs.symm⟩
    | none =>
      cases hdb : dbs.find?
          (fun r => r.id == databaseId && r.project_id == projectId) with
      | none =>
        simp only [getDbConnection, hcl, hdb, Prod.mk.injEq] at hfirst
        exact absurd hfirst.1 (by simp)
      | some row =>
        cases v₁ with
        | error e =>
          simp only [getDbConnection, hcl, hdb, Prod.mk.injEq] at hfirst
          exact absurd hfirst.1 (by simp)
        | ok u =>
          simp only [getDbConnection, hcl, hdb, Prod.mk.injEq,
            Except.ok.injEq] at hfirst
          exact Or.inr ⟨rfl, hfirst.1.symm, hfirst.2.symm⟩
  have hlt : ∀ v₁ h s',
      getDbConnection dbs v₁ projectId databaseId s = (.ok h, s') →
      h < s'.nextHandle := by
    intro v₁ h s' hfirst
    rcases hbuild v₁ h s' hfirst with ⟨hl, rfl⟩ | ⟨-, rfl, rfl⟩
    · exact cacheLookup_lt hwf hl
    · exact Nat.lt_succ_self _
  have hcached : ∀ v₁ h s',
      getDbConnection dbs v₁ projectId databaseId s = (.ok h, s') →
      cacheLookup (cacheKey projectId databaseId) s' = some h := by
    intro v₁ h s' hfirst
    rcases hbuild v₁ h s' hfirst with ⟨hl, rfl⟩ | ⟨hnone, rfl, rfl⟩
    · exact hl
    · have hfnone : s.cache.find?
          (fun kv => kv.1 == cacheKey projectId databaseId) = none := by
        unfold cacheLookup at hnone
        cases hf : s.cache.find?
            (fun kv => kv.1 == cacheKey projectId databaseId) with
        | none => rfl
        | some kv =>
          rw [hf] at hnone
          cases hnone
      unfold cacheLookup
      simp only [List.find?_append, hfnone]
      simp
  refine ⟨?_, ?_, ?_, ?_⟩
  · intro v₁ v₂ h s' hfirst
    have hl := hcached v₁ h s' hfirst
    rcases hbuild v₁ h s' hfirst with ⟨-, rfl⟩ | ⟨-, -, rfl⟩ <;>
      simp only [getDbConnection, hl]
  · intro v₁ h s' row hfirst hdbrow
    have hclean : cacheLookup (cacheKey projectId databaseId)
        { cache := [], nextHandle := s'.nextHandle,
          destroyed := s'.destroyed ++ s'.cache.map Prod.snd } = none := rfl
    refine ⟨{ cache := [(cacheKey projectId databaseId, s'.nextHandle)],
              nextHandle := s'.nextHandle + 1,
              destroyed := s'.destroyed ++ s'.cache.map Prod.snd },
            ?_, Nat.ne_of_gt (hlt v₁ h s' hfirst)⟩
    simp only [getDbConnection, cleanupDbConnections, hclean, hdbrow,
      List.nil_append]
  · intro v hcl hdb
    cases v with
    | error e => simp only [getDbConnection, hcl, hdb]
    | ok u => simp only [getDbConnection, hcl, hdb]
  · intro e hcl hdbex
    obtain ⟨row, hdb⟩ := hdbex
    refine ⟨{ s with
                nextHandle := s.nextHandle + 1,
                destroyed := s.destroyed ++ [s.nextHandle] },
            ?_, rfl, by simp⟩
    simp only [getDbConnection, hcl, hdb]

/-- Witness for C7: from the initial broker state, the first call for
(project 7, database 5) builds handle 0 and the second call returns the
identical cached handle and state. -/
theorem getDbConnection_cache_spec_witness :
    BrokerWf BrokerState.init ∧
    getDbConnection [sampleDbRow] (.ok ()) 7 5 BrokerState.init =
      (.ok 0, brokerAfterFirst) ∧
    getDbConnection [sampleDbRow] (.ok ()) 7 5 brokerAfterFirst =
      (.ok 0, brokerAfterFirst) :=
  ⟨by decide, by decide,
   (getDbConnection_cache_spec [sampleDbRow] 7 5 BrokerState.init (by decide)).1
     (.ok ()) (.ok ()) 0 brokerAfterFirst (by decide)⟩

end ApiBD
